import Mathlib

set_option maxHeartbeats 1000000

/-! Shallow embedding of the paper-trading and risk-limiting engine of the
algo_trade_personal repository.  Python floats are modelled as exact
rationals, wall-clock dates and timestamps as natural numbers, raised
exceptions as `Option`/`Except` results, and in-place mutation as explicit
state passing. -/

/-- One entry of `RiskManager.trades`: the dict appended by `update_pnl`
in src/risk/risk/risk_manager.py. -/
structure RMTradeEntry where
  timestamp : ℕ
  pnl : ℚ
  cumulative_pnl : ℚ
  trade_id : Option String
  deriving DecidableEq

/-- Mutable state of `RiskManager` (src/risk/risk/risk_manager.py). -/
structure RiskManager where
  max_daily_loss : ℚ
  daily_pnl : ℚ
  trading_allowed : Bool
  session_date : ℕ
  trades : List RMTradeEntry
  deriving DecidableEq

/-- `RiskManager.__init__`: raises `ValueError` unless `max_daily_loss` is
strictly negative; `datetime.now().date()` is passed in as `today`. -/
def RiskManager.init (max_daily_loss : ℚ) (today : ℕ) : Option RiskManager :=
  if max_daily_loss ≥ 0 then none
  else some { max_daily_loss := max_daily_loss, daily_pnl := 0,
              trading_allowed := true, session_date := today, trades := [] }

/-- `RiskManager.reset_daily_pnl`. -/
def RiskManager.reset_daily_pnl (rm : RiskManager) : RiskManager :=
  { rm with daily_pnl := 0, trading_allowed := true, trades := [] }

/-- `RiskManager._check_date_reset`, with the wall-clock date passed
explicitly as `current_date`. -/
def RiskManager.check_date_reset (rm : RiskManager) (current_date : ℕ) : RiskManager :=
  if current_date ≠ rm.session_date then
    { rm.reset_daily_pnl with session_date := current_date }
  else rm

/-- `RiskManager.update_pnl`; `current_date` and `now` stand for the two
`datetime.now()` reads (date check, trade timestamp).  Returns the new
state together with the boolean result. -/
def RiskManager.update_pnl (rm : RiskManager) (current_date now : ℕ) (pnl : ℚ)
    (tid : Option String) : RiskManager × Bool :=
  let rm1 := rm.check_date_reset current_date
  if rm1.trading_allowed = false then (rm1, false)
  else
    let new_pnl := rm1.daily_pnl + pnl
    if new_pnl < rm1.max_daily_loss then (rm1, false)
    else
      let rm2 := { rm1 with daily_pnl := new_pnl,
                            trades := rm1.trades ++ [⟨now, pnl, new_pnl, tid⟩] }
      let rm3 := if rm2.daily_pnl ≤ rm2.max_daily_loss then
                   { rm2 with trading_allowed := false }
                 else rm2
      (rm3, true)

/-- `RiskManager.is_trading_allowed`. -/
def RiskManager.is_trading_allowed (rm : RiskManager) (current_date : ℕ) :
    RiskManager × Bool :=
  let rm1 := rm.check_date_reset current_date
  (rm1, rm1.trading_allowed)

/-- The state-relevant operations of `RiskManager`: `update` is
`update_pnl`, `reset` is `reset_daily_pnl`, and `query` is any of the
read-only methods (`is_trading_allowed`, `get_daily_pnl`,
`get_remaining_loss_budget`, `get_trade_history`, `get_status`), whose
only state effect is `_check_date_reset`. -/
inductive RMOp where
  | update (current_date now : ℕ) (pnl : ℚ) (tid : Option String)
  | reset
  | query (current_date : ℕ)
  deriving DecidableEq

def RiskManager.applyOp (rm : RiskManager) : RMOp → RiskManager
  | .update d n p t => (rm.update_pnl d n p t).1
  | .reset => rm.reset_daily_pnl
  | .query d => rm.check_date_reset d

def RiskManager.runOps (rm : RiskManager) (ops : List RMOp) : RiskManager :=
  ops.foldl RiskManager.applyOp rm

/-- An `RMOp` that stays within the current session day and is not an
explicit rollover. -/
def RMOp.sameDayNoReset (d : ℕ) : RMOp → Prop
  | .update cd _ _ _ => cd = d
  | .reset => False
  | .query cd => cd = d

/-- `daily_pnl` stays at or above the configured limit `m`, and the limit
itself is never modified. -/
def RMBounded (m : ℚ) (rm : RiskManager) : Prop :=
  rm.max_daily_loss = m ∧ m ≤ rm.daily_pnl

/-- A concrete risk-manager state used to instantiate the theorems. -/
def rmSample : RiskManager :=
  { max_daily_loss := -1000, daily_pnl := 0, trading_allowed := true,
    session_date := 0, trades := [] }

/-- One row of the trade-log list appended by `exit_trade` in
src/main.py: date, entry price, exit price, reason, trade PnL, day. -/
structure MainLogEntry where
  date : ℕ
  entry_price : ℚ
  exit_price : ℚ
  reason : String
  trade_pnl : ℚ
  day : Option ℕ
  deriving DecidableEq

/-- Per-bar state of the script-level `RiskManager` in src/main.py.  The
source keeps `open_position` (None or the string LONG) and `entry_price`
(None or a float) in lockstep: both are set by `enter_trade`, both cleared
by `exit_trade` and `reset_day`; they are collapsed here into one field
`openLong` holding the entry price while a LONG position is open. -/
structure MainRM where
  capital : ℚ
  max_risk_per_trade : ℚ
  max_daily_loss : ℚ
  stop_loss : ℚ
  target : ℚ
  daily_pnl : ℚ
  total_pnl : ℚ
  openLong : Option ℚ
  current_day : Option ℕ
  trade_log : List MainLogEntry
  deriving DecidableEq

/-- `RiskManager.can_trade` in src/main.py. -/
def MainRM.can_trade (rm : MainRM) : Prop :=
  rm.daily_pnl > -rm.capital * rm.max_daily_loss

instance (rm : MainRM) : Decidable rm.can_trade := by
  unfold MainRM.can_trade; infer_instance

/-- `RiskManager.reset_day` in src/main.py (console output dropped). -/
def MainRM.reset_day (rm : MainRM) (day : ℕ) : MainRM :=
  { rm with
    total_pnl := if rm.current_day ≠ none then rm.total_pnl + rm.daily_pnl
                 else rm.total_pnl,
    daily_pnl := 0, openLong := none, current_day := some day }

/-- `RiskManager.enter_trade` in src/main.py (the risk amount is only
printed, never stored). -/
def MainRM.enter_trade (rm : MainRM) (price : ℚ) : MainRM :=
  { rm with openLong := some price }

/-- `RiskManager.exit_trade` in src/main.py. -/
def MainRM.exit_trade (rm : MainRM) (price : ℚ) (date : ℕ) (reason : String) :
    MainRM :=
  match rm.openLong with
  | some entry =>
      { rm with
        daily_pnl := rm.daily_pnl + (price - entry),
        trade_log := rm.trade_log ++
          [⟨date, entry, price, reason, price - entry, rm.current_day⟩],
        openLong := none }
  | none => { rm with openLong := none }

/-- One row of the input series as consumed by the main loop: timestamp,
calendar day, and the close/EMA/VWAP values for this bar. -/
structure Bar where
  date : ℕ
  day : ℕ
  close : ℚ
  ema : ℚ
  vwap : ℚ
  deriving DecidableEq

/-- Signal generation of the main loop: BUY exactly when the close is
above both the EMA and the VWAP. -/
def Bar.signalBuy (b : Bar) : Prop := b.close > b.ema ∧ b.close > b.vwap

instance (b : Bar) : Decidable b.signalBuy := by
  unfold Bar.signalBuy; infer_instance

/-- One iteration of the main loop in src/main.py: day-change reset,
signal generation, then the trading logic. -/
def mainStep (rm : MainRM) (b : Bar) : MainRM :=
  let rm1 := if rm.current_day ≠ some b.day then rm.reset_day b.day else rm
  if rm1.openLong = none ∧ b.signalBuy then
    if rm1.can_trade then rm1.enter_trade b.close else rm1
  else
    match rm1.openLong with
    | some entry =>
        if b.close ≥ entry * (1 + rm1.target) then
          rm1.exit_trade b.close b.date "TARGET HIT"
        else if b.close ≤ entry * (1 - rm1.stop_loss) then
          rm1.exit_trade b.close b.date "STOP LOSS"
        else rm1
    | none => rm1

def runMain (rm : MainRM) (bars : List Bar) : MainRM :=
  bars.foldl mainStep rm

/-- Loop invariant of src/main.py: whenever the daily-loss gate
`can_trade` is closed, no position is open.  It holds on entry to the
loop (no position yet) and is preserved by every iteration. -/
def mainInv (rm : MainRM) : Prop := ¬ rm.can_trade → rm.openLong = none

/-- A concrete risk-manager state whose latch is already closed. -/
def rmLatched : RiskManager :=
  { max_daily_loss := -1000, daily_pnl := -1000, trading_allowed := false,
    session_date := 0, trades := [] }

/-- A concrete main-loop state with the daily-loss gate closed. -/
def mainSample : MainRM :=
  { capital := 1000, max_risk_per_trade := 1/100, max_daily_loss := 2/100,
    stop_loss := 1/100, target := 2/100, daily_pnl := -50, total_pnl := 0,
    openLong := none, current_day := some 0, trade_log := [] }

/-- A concrete bar carrying a BUY signal on the same day. -/
def barSample : Bar := { date := 0, day := 0, close := 10, ema := 5, vwap := 5 }

/-- `TradeStatus` enum of src/execution/paper_trade.py. -/
inductive TradeStatus where
  | OPEN
  | CLOSED_PROFIT
  | CLOSED_LOSS
  | CLOSED_STOPPED
  deriving DecidableEq

/-- One `Trade` object of src/execution/paper_trade.py.  Fields that are
None until the trade is closed are `Option`s. -/
structure Trade where
  trade_id : String
  entry_price : ℚ
  stop_loss : ℚ
  target_price : ℚ
  quantity : ℚ := 1
  entry_time : ℕ
  exit_price : Option ℚ := none
  exit_time : Option ℕ := none
  status : TradeStatus := .OPEN
  pnl : Option ℚ := none
  pnl_percent : Option ℚ := none
  exit_reason : Option String := none
  deriving DecidableEq

/-- `Trade._calculate_pnl`. -/
def Trade.calculate_pnl (t : Trade) : Trade :=
  match t.exit_price with
  | none => t
  | some e =>
    let price_diff := e - t.entry_price
    { t with pnl := some (price_diff * t.quantity),
             pnl_percent := some (price_diff / t.entry_price * 100) }

/-- `Trade.close_at_target`. -/
def Trade.close_at_target (t : Trade) (exit_time : ℕ) : Trade :=
  ({ t with exit_price := some t.target_price, exit_time := some exit_time,
            status := .CLOSED_PROFIT,
            exit_reason := some "TARGET_HIT" }).calculate_pnl

/-- `Trade.close_at_stop_loss`. -/
def Trade.close_at_stop_loss (t : Trade) (exit_time : ℕ) : Trade :=
  ({ t with exit_price := some t.stop_loss, exit_time := some exit_time,
            status := .CLOSED_STOPPED,
            exit_reason := some "STOP_LOSS_HIT" }).calculate_pnl

/-- `Trade.close_at_price`: sets the exit fields, recomputes PnL, then
classifies the status against the unchanged target/stop thresholds. -/
def Trade.close_at_price (t : Trade) (exit_price : ℚ) (exit_time : ℕ)
    (reason : String) : Trade :=
  let t1 :=
    ({ t with exit_price := some exit_price, exit_time := some exit_time,
              exit_reason := some reason }).calculate_pnl
  if exit_price ≥ t.target_price then { t1 with status := .CLOSED_PROFIT }
  else if exit_price ≤ t.stop_loss then { t1 with status := .CLOSED_STOPPED }
  else { t1 with status := .CLOSED_LOSS }

/-- Dict access `open_trades[trade_id]` on the insertion-ordered mapping,
modelled as an association list with unique keys. -/
def lookupAssoc : List (String × Trade) → String → Option Trade
  | [], _ => none
  | p :: rest, k => if p.1 = k then some p.2 else lookupAssoc rest k

/-- Dict removal `open_trades.pop(trade_id)` (keys are unique, so
removing the first occurrence is removing the only one). -/
def removeAssoc : List (String × Trade) → String → List (String × Trade)
  | [], _ => []
  | p :: rest, k => if p.1 = k then rest else p :: removeAssoc rest k

/-- Mutable state of `PaperTrader` in src/execution/paper_trade.py. -/
structure PaperTrader where
  trades : List Trade := []
  open_trades : List (String × Trade) := []
  closed_trades : List Trade := []
  total_pnl : ℚ := 0
  deriving DecidableEq

/-- The fresh ledger built by `PaperTrader.__init__`. -/
def PaperTrader.init : PaperTrader := {}

/-- `PaperTrader.enter_trade`: the validation chain in source order,
then creation and insertion.  A raised `ValueError` is the `.error`
result, which by construction leaves the caller with the old state. -/
def PaperTrader.enter_trade (pt : PaperTrader) (trade_id : String)
    (entry_price stop_loss target_price quantity : ℚ) (entry_time : ℕ) :
    Except String PaperTrader :=
  if trade_id ∈ pt.open_trades.map Prod.fst ∨
      trade_id ∈ pt.closed_trades.map Trade.trade_id then
    .error "trade id already exists"
  else if entry_price ≤ 0 then .error "entry_price must be positive"
  else if stop_loss ≤ 0 then .error "stop_loss must be positive"
  else if target_price ≤ 0 then .error "target_price must be positive"
  else if quantity ≤ 0 then .error "quantity must be positive"
  else if stop_loss ≥ entry_price then
    .error "stop_loss must be below entry_price for long trades"
  else if target_price ≤ entry_price then
    .error "target_price must be above entry_price for long trades"
  else
    let trade : Trade :=
      { trade_id := trade_id, entry_price := entry_price, stop_loss := stop_loss,
        target_price := target_price, quantity := quantity,
        entry_time := entry_time }
    .ok { pt with trades := pt.trades ++ [trade],
                  open_trades := pt.open_trades ++ [(trade_id, trade)] }

/-- `PaperTrader._move_to_closed`, taking the already-closed trade object
(the source mutates the shared object before popping it). -/
def PaperTrader.move_to_closed (pt : PaperTrader) (trade_id : String)
    (trade : Trade) : PaperTrader :=
  { pt with open_trades := removeAssoc pt.open_trades trade_id,
            closed_trades := pt.closed_trades ++ [trade],
            total_pnl := match trade.pnl with
                         | some p => pt.total_pnl + p
                         | none => pt.total_pnl }

/-- `PaperTrader.exit_trade_at_target`. -/
def PaperTrader.exit_trade_at_target (pt : PaperTrader) (trade_id : String)
    (exit_time : ℕ) : PaperTrader × Bool :=
  match lookupAssoc pt.open_trades trade_id with
  | none => (pt, false)
  | some trade =>
      (pt.move_to_closed trade_id (trade.close_at_target exit_time), true)

/-- `PaperTrader.exit_trade_at_stop_loss`. -/
def PaperTrader.exit_trade_at_stop_loss (pt : PaperTrader) (trade_id : String)
    (exit_time : ℕ) : PaperTrader × Bool :=
  match lookupAssoc pt.open_trades trade_id with
  | none => (pt, false)
  | some trade =>
      (pt.move_to_closed trade_id (trade.close_at_stop_loss exit_time), true)

/-- `PaperTrader.exit_trade_at_price`. -/
def PaperTrader.exit_trade_at_price (pt : PaperTrader) (trade_id : String)
    (exit_price : ℚ) (exit_time : ℕ) (reason : String) : PaperTrader × Bool :=
  match lookupAssoc pt.open_trades trade_id with
  | none => (pt, false)
  | some trade =>
      (pt.move_to_closed trade_id
        (trade.close_at_price exit_price exit_time reason), true)

/-- `PaperTrader.get_pnl_list`. -/
def PaperTrader.get_pnl_list (pt : PaperTrader) : List ℚ :=
  pt.closed_trades.filterMap Trade.pnl

/-- `PaperTrader.get_win_rate`. -/
def PaperTrader.get_win_rate (pt : PaperTrader) : ℚ :=
  if pt.closed_trades = [] then 0
  else
    let winning_trades :=
      (pt.closed_trades.filter
        (fun t => match t.pnl with | some p => decide (0 < p) | none => false)).length
    (winning_trades : ℚ) / (pt.closed_trades.length : ℚ) * 100

/-- The dict returned by `PaperTrader.get_statistics`. -/
structure TradeStatistics where
  total_trades : ℕ
  open_count : ℕ
  closed_count : ℕ
  total_pnl : ℚ
  win_rate : ℚ
  avg_win : ℚ
  avg_loss : ℚ
  profit_factor : ℚ
  deriving DecidableEq

/-- `PaperTrader.get_statistics`. -/
def PaperTrader.get_statistics (pt : PaperTrader) : TradeStatistics :=
  let closed_pnls := pt.get_pnl_list
  if closed_pnls = [] then
    { total_trades := pt.trades.length, open_count := pt.open_trades.length,
      closed_count := pt.closed_trades.length, total_pnl := 0, win_rate := 0,
      avg_win := 0, avg_loss := 0, profit_factor := 0 }
  else
    let winning_pnls := closed_pnls.filter (fun p => decide (0 < p))
    let losing_pnls := closed_pnls.filter (fun p => decide (p < 0))
    let avg_win := if winning_pnls ≠ [] then
        winning_pnls.sum / (winning_pnls.length : ℚ) else 0
    let avg_loss := if losing_pnls ≠ [] then
        losing_pnls.sum / (losing_pnls.length : ℚ) else 0
    let gross_profit := winning_pnls.sum
    let gross_loss := |losing_pnls.sum|
    let profit_factor := if 0 < gross_loss then gross_profit / gross_loss else 0
    { total_trades := pt.trades.length, open_count := pt.open_trades.length,
      closed_count := pt.closed_trades.length, total_pnl := pt.total_pnl,
      win_rate := pt.get_win_rate, avg_win := avg_win, avg_loss := avg_loss,
      profit_factor := profit_factor }

/-- A concrete open trade used to instantiate the theorems. -/
def tradeSample : Trade :=
  { trade_id := "T1", entry_price := 100, stop_loss := 95, target_price := 110,
    quantity := 10, entry_time := 0 }

/-- A concrete ledger with a single open trade. -/
def ptOpen : PaperTrader :=
  { trades := [tradeSample], open_trades := [("T1", tradeSample)],
    closed_trades := [], total_pnl := 0 }

/-- The keys of the open-trade mapping. -/
def openKeys (pt : PaperTrader) : List String := pt.open_trades.map Prod.fst

/-- The trade ids of the closed sequence. -/
def closedIds (pt : PaperTrader) : List String :=
  pt.closed_trades.map Trade.trade_id

/-- The trade ids of the all-trades sequence. -/
def allIds (pt : PaperTrader) : List String := pt.trades.map Trade.trade_id

/-- Ledger identity invariant: no duplicate ids in any collection, open
and closed ids are disjoint, the all-trades ids are exactly the open and
closed ids together, and every open-mapping entry is keyed by the id of
the trade it holds. -/
def LedgerInv (pt : PaperTrader) : Prop :=
  (allIds pt).Nodup ∧ (openKeys pt).Nodup ∧ (closedIds pt).Nodup ∧
  (∀ x ∈ openKeys pt, x ∉ closedIds pt) ∧
  (∀ x, x ∈ allIds pt ↔ x ∈ openKeys pt ∨ x ∈ closedIds pt) ∧
  (∀ p ∈ pt.open_trades, p.2.trade_id = p.1)

/-- The mutating operations of `PaperTrader`. -/
inductive PTOp where
  | enter (id : String) (entry stop target qty : ℚ) (ts : ℕ)
  | exitTarget (id : String) (ts : ℕ)
  | exitStop (id : String) (ts : ℕ)
  | exitPrice (id : String) (p : ℚ) (ts : ℕ) (reason : String)

/-- Apply one operation; a raised error from `enter_trade` keeps the
caller state unchanged. -/
def PaperTrader.applyOp (pt : PaperTrader) : PTOp → PaperTrader
  | .enter id en st tg q ts =>
      match pt.enter_trade id en st tg q ts with
      | .ok pt2 => pt2
      | .error _ => pt
  | .exitTarget id ts => (pt.exit_trade_at_target id ts).1
  | .exitStop id ts => (pt.exit_trade_at_stop_loss id ts).1
  | .exitPrice id p ts r => (pt.exit_trade_at_price id p ts r).1

def PaperTrader.runOps (pt : PaperTrader) (ops : List PTOp) : PaperTrader :=
  ops.foldl PaperTrader.applyOp pt

/-- A closed winning trade for instantiating the statistics theorems. -/
def tradeWin : Trade :=
  { trade_id := "T1", entry_price := 100, stop_loss := 95, target_price := 110,
    quantity := 10, entry_time := 0, exit_price := some 110, exit_time := some 1,
    status := .CLOSED_PROFIT, pnl := some 100, pnl_percent := some 10,
    exit_reason := some "TARGET_HIT" }

/-- A ledger whose only closed trade is a winner (no losses at all). -/
def ptWinner : PaperTrader :=
  { trades := [tradeWin], open_trades := [], closed_trades := [tradeWin],
    total_pnl := 100 }

theorem rmBounded_check_date_reset (m : ℚ) (rm : RiskManager) (d : ℕ)
    (hm : m < 0) (h : RMBounded m rm) : RMBounded m (rm.check_date_reset d) := by
  unfold RiskManager.check_date_reset RiskManager.reset_daily_pnl
  split
  · exact ⟨h.1, le_of_lt hm⟩
  · exact h

theorem rmBounded_applyOp (m : ℚ) (rm : RiskManager) (op : RMOp)
    (hm : m < 0) (h : RMBounded m rm) : RMBounded m (rm.applyOp op) := by
  cases op with
  | update d n p t =>
    have h1 := rmBounded_check_date_reset m rm d hm h
    set rm1 := rm.check_date_reset d with hrm1
    show RMBounded m (rm.update_pnl d n p t).1
    unfold RiskManager.update_pnl
    rw [← hrm1]
    by_cases hta : rm1.trading_allowed = false
    · simpa [hta] using h1
    · by_cases hlt : rm1.daily_pnl + p < rm1.max_daily_loss
      · simpa [hta, hlt] using h1
      · have hge : m ≤ rm1.daily_pnl + p := by
          rw [← h1.1]; exact le_of_not_lt hlt
        by_cases hle : rm1.daily_pnl + p ≤ rm1.max_daily_loss
        · simp only [hta, if_false, hlt, if_false, hle, if_true]
          exact ⟨h1.1, hge⟩
        · simp only [hta, if_false, hlt, if_false, hle, if_false]
          exact ⟨h1.1, hge⟩
  | reset =>
    exact ⟨h.1, le_of_lt hm⟩
  | query d =>
    exact rmBounded_check_date_reset m rm d hm h

theorem rmBounded_runOps (m : ℚ) (hm : m < 0) :
    ∀ (ops : List RMOp) (rm : RiskManager), RMBounded m rm →
      RMBounded m (rm.runOps ops) := by
  intro ops
  induction ops with
  | nil => intro rm h; exact h
  | cons op rest ih =>
    intro rm h
    exact ih (rm.applyOp op) (rmBounded_applyOp m rm op hm h)

/-- C10: after construction with a strictly negative `max_daily_loss` and
any sequence of `update_pnl`, `reset_daily_pnl` and query calls, the
cumulative `daily_pnl` never goes strictly below the configured limit:
the limit is unchanged and `daily_pnl` stays at or above it. -/
theorem C10_daily_pnl_never_below_limit (m : ℚ) (d : ℕ) (rm0 : RiskManager)
    (h0 : RiskManager.init m d = some rm0) (ops : List RMOp) :
    (rm0.runOps ops).max_daily_loss = m ∧ m ≤ (rm0.runOps ops).daily_pnl := by
  unfold RiskManager.init at h0
  by_cases hm : m ≥ 0
  · simp [hm] at h0
  · simp only [hm, if_false, Option.some.injEq] at h0
    have hmlt : m < 0 := lt_of_not_ge hm
    have hb0 : RMBounded m rm0 := by
      rw [← h0]
      exact ⟨rfl, le_of_lt hmlt⟩
    exact rmBounded_runOps m hmlt ops rm0 hb0

theorem C10_daily_pnl_never_below_limit_witness :
    ((rmSample.runOps [RMOp.update 0 1 (-500) none, RMOp.update 0 2 (-600) none,
        RMOp.reset]).max_daily_loss = -1000 ∧
      (-1000 : ℚ) ≤ (rmSample.runOps [RMOp.update 0 1 (-500) none,
        RMOp.update 0 2 (-600) none, RMOp.reset]).daily_pnl) :=
  C10_daily_pnl_never_below_limit (-1000) 0 rmSample (by decide)
    [RMOp.update 0 1 (-500) none, RMOp.update 0 2 (-600) none, RMOp.reset]

/-- C1: with the wall-clock date equal to the session date, `update_pnl`
rejects with no state change when the latch is closed; with the latch open
it rejects with no state change when `daily_pnl + pnl` would fall strictly
below `max_daily_loss`, and otherwise accepts: it returns true, sets
`daily_pnl` to `daily_pnl + pnl`, appends exactly one trade-log entry, and
closes the latch exactly when the new `daily_pnl` is at or below
`max_daily_loss`. -/
theorem C1_update_pnl_spec (rm : RiskManager) (d now : ℕ) (pnl : ℚ)
    (tid : Option String) (hd : d = rm.session_date) :
    (rm.trading_allowed = false → rm.update_pnl d now pnl tid = (rm, false)) ∧
    (rm.trading_allowed = true →
      (rm.daily_pnl + pnl < rm.max_daily_loss →
        rm.update_pnl d now pnl tid = (rm, false)) ∧
      (rm.max_daily_loss ≤ rm.daily_pnl + pnl →
        (rm.update_pnl d now pnl tid).2 = true ∧
        (rm.update_pnl d now pnl tid).1.daily_pnl = rm.daily_pnl + pnl ∧
        (rm.update_pnl d now pnl tid).1.trades =
          rm.trades ++ [⟨now, pnl, rm.daily_pnl + pnl, tid⟩] ∧
        ((rm.update_pnl d now pnl tid).1.trading_allowed = false ↔
          rm.daily_pnl + pnl ≤ rm.max_daily_loss))) := by
  have hcd : rm.check_date_reset d = rm := by
    simp [RiskManager.check_date_reset, hd]
  refine ⟨?_, ?_⟩
  · intro hfalse
    simp [RiskManager.update_pnl, hcd, hfalse]
  · intro htrue
    refine ⟨?_, ?_⟩
    · intro hlt
      simp [RiskManager.update_pnl, hcd, htrue, hlt]
    · intro hge
      have hnlt : ¬ (rm.daily_pnl + pnl < rm.max_daily_loss) := not_lt.mpr hge
      by_cases hle : rm.daily_pnl + pnl ≤ rm.max_daily_loss
      · simp [RiskManager.update_pnl, hcd, htrue, hnlt, hle]
      · simp [RiskManager.update_pnl, hcd, htrue, hnlt, hle]

theorem C1_update_pnl_spec_witness :
    ((0 : ℕ) = rmSample.session_date) ∧
    (rmSample.update_pnl 0 1 (-500) none).2 = true ∧
    (rmSample.update_pnl 0 1 (-500) none).1.daily_pnl = -500 := by
  have h := C1_update_pnl_spec rmSample 0 1 (-500) none rfl
  have h2 := (h.2 rfl).2 (by norm_num [rmSample])
  exact ⟨rfl, h2.1, by rw [h2.2.1]; norm_num [rmSample]⟩

theorem latch_closed_check_date_reset (rm : RiskManager) (d : ℕ)
    (hd : d = rm.session_date) : rm.check_date_reset d = rm := by
  simp [RiskManager.check_date_reset, hd]

theorem latch_closed_applyOp (rm : RiskManager) (op : RMOp)
    (hop : op.sameDayNoReset rm.session_date)
    (hoff : rm.trading_allowed = false) :
    rm.applyOp op = rm := by
  cases op with
  | update d n p t =>
    have hd : d = rm.session_date := hop
    show (rm.update_pnl d n p t).1 = rm
    unfold RiskManager.update_pnl
    rw [latch_closed_check_date_reset rm d hd]
    simp [hoff]
  | reset => exact absurd hop (by simp [RMOp.sameDayNoReset])
  | query d =>
    have hd : d = rm.session_date := hop
    exact latch_closed_check_date_reset rm d hd

theorem mainInv_reset_day (rm : MainRM) (day : ℕ) : mainInv (rm.reset_day day) := by
  intro _
  rfl

theorem mainStep_closed_gate_frozen (rm : MainRM) (b : Bar)
    (hday : rm.current_day = some b.day) (hinv : mainInv rm)
    (hoff : ¬ rm.can_trade) : mainStep rm b = rm := by
  have hopen : rm.openLong = none := hinv hoff
  unfold mainStep
  simp [hday, hopen]
  intro _
  simp [hoff]

theorem mainInv_step (rm : MainRM) (b : Bar) (hinv : mainInv rm) :
    mainInv (mainStep rm b) := by
  unfold mainStep
  set rm1 := if rm.current_day ≠ some b.day then rm.reset_day b.day else rm with hrm1
  have hinv1 : mainInv rm1 := by
    rw [hrm1]
    split
    · exact mainInv_reset_day rm b.day
    · exact hinv
  by_cases hcond : rm1.openLong = none ∧ b.signalBuy
  · simp only [hcond, if_true]
    by_cases hct : rm1.can_trade
    · simp only [hct, if_true]
      intro hno
      exact absurd hct (by simpa [MainRM.enter_trade, MainRM.can_trade] using hno)
    · simp only [hct, if_false]
      exact hinv1
  · simp only [hcond, if_false]
    cases hopen : rm1.openLong with
    | none => simpa [hopen] using hinv1
    | some entry =>
      simp only [hopen]
      by_cases htgt : b.close ≥ entry * (1 + rm1.target)
      · simp only [htgt, if_true]
        intro _
        simp [MainRM.exit_trade, hopen]
      · by_cases hstp : b.close ≤ entry * (1 - rm1.stop_loss)
        · simp only [htgt, if_false, hstp, if_true]
          intro _
          simp [MainRM.exit_trade, hopen]
        · simp only [htgt, if_false, hstp, if_false]
          exact hinv1

theorem runMain_closed_gate_frozen (rm : MainRM) (bars : List Bar)
    (hday : ∀ b ∈ bars, rm.current_day = some b.day) (hinv : mainInv rm)
    (hoff : ¬ rm.can_trade) : runMain rm bars = rm := by
  induction bars with
  | nil => rfl
  | cons b rest ih =>
    have hstep : mainStep rm b = rm :=
      mainStep_closed_gate_frozen rm b (hday b (by simp)) hinv hoff
    show runMain (mainStep rm b) rest = rm
    rw [hstep]
    exact ih (fun b hb => hday b (by simp [hb]))

/-- C2: the risk gate latch is one-way within a session day.  For the
`RiskManager` module: once `trading_allowed` is false, any same-day
sequence of `update_pnl` and query calls leaves the whole state (hence
the latch) unchanged, and only `reset_daily_pnl` re-opens the latch.  For
the main.py gate: the loop invariant (gate closed implies no open
position) is preserved by every iteration, and from any invariant state
with the gate closed, processing any same-day bar sequence leaves the
state unchanged, so `can_trade` stays false. -/
theorem C2_one_way_latch :
    (∀ (rm : RiskManager) (ops : List RMOp),
        (∀ op ∈ ops, op.sameDayNoReset rm.session_date) →
        rm.trading_allowed = false →
        rm.runOps ops = rm ∧ (rm.runOps ops).trading_allowed = false) ∧
    (∀ rm : RiskManager, (rm.reset_daily_pnl).trading_allowed = true) ∧
    (∀ (rm : MainRM) (b : Bar), mainInv rm → mainInv (mainStep rm b)) ∧
    (∀ (rm : MainRM) (bars : List Bar),
        (∀ b ∈ bars, rm.current_day = some b.day) → mainInv rm →
        ¬ rm.can_trade →
        runMain rm bars = rm ∧ ¬ (runMain rm bars).can_trade) := by
  refine ⟨?_, ?_, ?_, ?_⟩
  · intro rm ops
    induction ops with
    | nil => intro _ hoff; exact ⟨rfl, hoff⟩
    | cons op rest ih =>
      intro hops hoff
      have hsame : op.sameDayNoReset rm.session_date := hops op (by simp)
      have hstep : rm.applyOp op = rm := latch_closed_applyOp rm op hsame hoff
      have hcons : rm.runOps (op :: rest) = rm.runOps rest := by
        show List.foldl RiskManager.applyOp (rm.applyOp op) rest =
          List.foldl RiskManager.applyOp rm rest
        rw [hstep]
      rcases ih (fun o ho => hops o (by simp [ho])) hoff with ⟨h1, h2⟩
      rw [hcons]
      exact ⟨h1, h2⟩
  · intro rm; rfl
  · exact mainInv_step
  · intro rm bars hday hinv hoff
    have h := runMain_closed_gate_frozen rm bars hday hinv hoff
    exact ⟨h, by rw [h]; exact hoff⟩

theorem C2_one_way_latch_witness :
    rmLatched.runOps [RMOp.update 0 1 5 none, RMOp.query 0] = rmLatched ∧
    (rmLatched.runOps [RMOp.update 0 1 5 none, RMOp.query 0]).trading_allowed
      = false :=
  C2_one_way_latch.1 rmLatched [RMOp.update 0 1 5 none, RMOp.query 0]
    (by
      intro op hop
      rcases List.mem_cons.mp hop with rfl | hop2
      · rfl
      · rcases List.mem_cons.mp hop2 with rfl | hop3
        · rfl
        · exact absurd hop3 (List.not_mem_nil op))
    rfl

/-- C9: in the main loop, with `rm1` the state after the day-change check,
(a) if no position is open, the signal is BUY, and the gate disallows
trading, the step changes nothing and the loop simply continues with the
remaining bars; (b) a new position is opened by a step only when no
position was open, the signal is BUY, and the gate allowed trading, and
the entry price is the current close. -/
theorem C9_entry_gating (rm : MainRM) (b : Bar) (rm1 : MainRM)
    (hrm1 : rm1 = if rm.current_day ≠ some b.day then rm.reset_day b.day else rm) :
    (rm1.openLong = none → b.signalBuy → ¬ rm1.can_trade →
      mainStep rm b = rm1 ∧ ∀ rest, runMain rm (b :: rest) = runMain rm1 rest) ∧
    (∀ p : ℚ, rm1.openLong = none → (mainStep rm b).openLong = some p →
      p = b.close ∧ b.signalBuy ∧ rm1.can_trade) := by
  have hunf : mainStep rm b =
      (if rm1.openLong = none ∧ b.signalBuy then
        if rm1.can_trade then rm1.enter_trade b.close else rm1
      else
        match rm1.openLong with
        | some entry =>
            if b.close ≥ entry * (1 + rm1.target) then
              rm1.exit_trade b.close b.date "TARGET HIT"
            else if b.close ≤ entry * (1 - rm1.stop_loss) then
              rm1.exit_trade b.close b.date "STOP LOSS"
            else rm1
        | none => rm1) := by
    rw [hrm1]
    rfl
  constructor
  · intro hopen hbuy hoff
    have hstep : mainStep rm b = rm1 := by
      rw [hunf]
      simp [hopen, hbuy, hoff]
    refine ⟨hstep, ?_⟩
    intro rest
    show runMain (mainStep rm b) rest = runMain rm1 rest
    rw [hstep]
  · intro p hopen hsome
    rw [hunf] at hsome
    by_cases hbuy : b.signalBuy
    · by_cases hct : rm1.can_trade
      · refine ⟨?_, hbuy, hct⟩
        simp [hopen, hbuy, hct, MainRM.enter_trade] at hsome
        exact hsome.symm
      · simp [hopen, hbuy, hct] at hsome
    · simp [hbuy, hopen] at hsome

theorem C9_entry_gating_witness :
    mainStep mainSample barSample = mainSample := by
  have h := C9_entry_gating mainSample barSample mainSample (by rfl)
  exact (h.1 rfl (by norm_num [Bar.signalBuy, barSample])
    (by norm_num [MainRM.can_trade, mainSample])).1

theorem close_at_target_pnl_eq (t : Trade) (ts : ℕ) :
    (t.close_at_target ts).pnl =
      some ((t.target_price - t.entry_price) * t.quantity) ∧
    (t.close_at_target ts).pnl_percent =
      some ((t.target_price - t.entry_price) / t.entry_price * 100) := by
  simp [Trade.close_at_target, Trade.calculate_pnl]

theorem close_at_stop_loss_pnl_eq (t : Trade) (ts : ℕ) :
    (t.close_at_stop_loss ts).pnl =
      some ((t.stop_loss - t.entry_price) * t.quantity) ∧
    (t.close_at_stop_loss ts).pnl_percent =
      some ((t.stop_loss - t.entry_price) / t.entry_price * 100) := by
  simp [Trade.close_at_stop_loss, Trade.calculate_pnl]

theorem close_at_price_pnl_eq (t : Trade) (p : ℚ) (ts : ℕ) (reason : String) :
    (t.close_at_price p ts reason).pnl = some ((p - t.entry_price) * t.quantity) ∧
    (t.close_at_price p ts reason).pnl_percent =
      some ((p - t.entry_price) / t.entry_price * 100) := by
  unfold Trade.close_at_price
  split_ifs <;> simp [Trade.calculate_pnl]

theorem close_at_target_trade_id (t : Trade) (ts : ℕ) :
    (t.close_at_target ts).trade_id = t.trade_id := by
  simp [Trade.close_at_target, Trade.calculate_pnl]

theorem close_at_stop_loss_trade_id (t : Trade) (ts : ℕ) :
    (t.close_at_stop_loss ts).trade_id = t.trade_id := by
  simp [Trade.close_at_stop_loss, Trade.calculate_pnl]

theorem close_at_price_trade_id (t : Trade) (p : ℚ) (ts : ℕ) (reason : String) :
    (t.close_at_price p ts reason).trade_id = t.trade_id := by
  unfold Trade.close_at_price
  split_ifs <;> simp [Trade.calculate_pnl]

/-- C4: `close_at_price` records the exit price and classifies the status
purely against the target/stop thresholds: at or above target it is
CLOSED_PROFIT, at or below stop it is CLOSED_STOPPED, and strictly
between the two it is CLOSED_LOSS, even when the exit price is above the
entry price (positive PnL classified as a loss). -/
theorem C4_close_at_price_status (t : Trade) (p : ℚ) (ts : ℕ) (reason : String)
    (hs : t.stop_loss < t.entry_price) (ht : t.entry_price < t.target_price) :
    (t.close_at_price p ts reason).exit_price = some p ∧
    (t.target_price ≤ p →
      (t.close_at_price p ts reason).status = .CLOSED_PROFIT) ∧
    (p ≤ t.stop_loss →
      (t.close_at_price p ts reason).status = .CLOSED_STOPPED) ∧
    (t.stop_loss < p → p < t.target_price →
      (t.close_at_price p ts reason).status = .CLOSED_LOSS) := by
  refine ⟨?_, ?_, ?_, ?_⟩
  · unfold Trade.close_at_price
    split_ifs <;> simp [Trade.calculate_pnl]
  · intro h
    have hp : p ≥ t.target_price := h
    simp [Trade.close_at_price, hp]
  · intro h
    have hnp : ¬ p ≥ t.target_price := by
      push_neg
      exact lt_of_le_of_lt h (lt_trans hs ht)
    simp [Trade.close_at_price, hnp, h]
  · intro h1 h2
    have hnp : ¬ p ≥ t.target_price := by push_neg; exact h2
    have hns : ¬ p ≤ t.stop_loss := by push_neg; exact h1
    simp [Trade.close_at_price, hnp, hns]

theorem C4_close_at_price_status_witness :
    (tradeSample.close_at_price 102 1 "MANUAL_EXIT").exit_price = some 102 ∧
    (tradeSample.close_at_price 102 1 "MANUAL_EXIT").status = .CLOSED_LOSS := by
  have h := C4_close_at_price_status tradeSample 102 1 "MANUAL_EXIT"
    (by norm_num [tradeSample]) (by norm_num [tradeSample])
  refine ⟨h.1, ?_⟩
  exact h.2.2.2 (by norm_num [tradeSample]) (by norm_num [tradeSample])

/-- C5: each of the three close operations leaves the trade with
`pnl = (exit price - entry price) * quantity` and
`pnl_percent = (exit price - entry price) / entry price * 100` exactly,
where the exit price is the target, the stop, or the given price
respectively. -/
theorem C5_pnl_formula (t : Trade) (ts : ℕ) (p : ℚ) (reason : String)
    (hen : 0 < t.entry_price) :
    ((t.close_at_target ts).pnl =
        some ((t.target_price - t.entry_price) * t.quantity) ∧
      (t.close_at_target ts).pnl_percent =
        some ((t.target_price - t.entry_price) / t.entry_price * 100)) ∧
    ((t.close_at_stop_loss ts).pnl =
        some ((t.stop_loss - t.entry_price) * t.quantity) ∧
      (t.close_at_stop_loss ts).pnl_percent =
        some ((t.stop_loss - t.entry_price) / t.entry_price * 100)) ∧
    ((t.close_at_price p ts reason).pnl =
        some ((p - t.entry_price) * t.quantity) ∧
      (t.close_at_price p ts reason).pnl_percent =
        some ((p - t.entry_price) / t.entry_price * 100)) :=
  ⟨close_at_target_pnl_eq t ts, close_at_stop_loss_pnl_eq t ts,
    close_at_price_pnl_eq t p ts reason⟩

theorem C5_pnl_formula_witness :
    (tradeSample.close_at_target 1).pnl = some 100 ∧
    (tradeSample.close_at_target 1).pnl_percent = some 10 := by
  have h := C5_pnl_formula tradeSample 1 102 "MANUAL_EXIT"
    (by norm_num [tradeSample])
  refine ⟨?_, ?_⟩
  · rw [h.1.1]; norm_num [tradeSample]
  · rw [h.1.2]; norm_num [tradeSample]

theorem lookupAssoc_eq_none_iff (l : List (String × Trade)) (k : String) :
    lookupAssoc l k = none ↔ k ∉ l.map Prod.fst := by
  induction l with
  | nil => simp [lookupAssoc]
  | cons p rest ih =>
    by_cases h : p.1 = k
    · simp [lookupAssoc, h]
    · simp only [lookupAssoc, h, if_false, List.map_cons, List.mem_cons, ih]
      constructor
      · intro hk hc
        rcases hc with hc | hc
        · exact h hc.symm
        · exact hk hc
      · intro hk
        intro hc
        exact hk (Or.inr hc)

theorem lookupAssoc_mem (l : List (String × Trade)) (k : String) (tr : Trade)
    (h : lookupAssoc l k = some tr) : (k, tr) ∈ l := by
  induction l with
  | nil => simp [lookupAssoc] at h
  | cons p rest ih =>
    by_cases hp : p.1 = k
    · simp only [lookupAssoc, hp, if_true, Option.some.injEq] at h
      have hpe : p = (k, tr) := by
        obtain ⟨a, b⟩ := p
        simp only at hp h
        rw [hp, h]
      exact List.mem_cons.mpr (Or.inl hpe.symm)
    · simp only [lookupAssoc, hp, if_false] at h
      exact List.mem_cons_of_mem p (ih h)

theorem lookupAssoc_mem_keys (l : List (String × Trade)) (k : String) (tr : Trade)
    (h : lookupAssoc l k = some tr) : k ∈ l.map Prod.fst := by
  have := lookupAssoc_mem l k tr h
  exact List.mem_map_of_mem Prod.fst this

theorem removeAssoc_subset (l : List (String × Trade)) (k : String) :
    ∀ p ∈ removeAssoc l k, p ∈ l := by
  induction l with
  | nil => simp [removeAssoc]
  | cons q rest ih =>
    intro p hp
    by_cases hq : q.1 = k
    · simp only [removeAssoc, hq, if_true] at hp
      exact List.mem_cons_of_mem q hp
    · simp only [removeAssoc, hq, if_false, List.mem_cons] at hp
      rcases hp with hp | hp
      · exact hp ▸ List.mem_cons_self q rest
      · exact List.mem_cons_of_mem q (ih p hp)

theorem mem_keys_removeAssoc (l : List (String × Trade)) (k x : String)
    (h : x ∈ (removeAssoc l k).map Prod.fst) : x ∈ l.map Prod.fst := by
  rcases List.mem_map.mp h with ⟨p, hp, hx⟩
  exact hx ▸ List.mem_map_of_mem Prod.fst (removeAssoc_subset l k p hp)

theorem nodup_keys_removeAssoc (l : List (String × Trade)) (k : String)
    (h : (l.map Prod.fst).Nodup) : ((removeAssoc l k).map Prod.fst).Nodup := by
  induction l with
  | nil => simp [removeAssoc]
  | cons q rest ih =>
    simp only [List.map_cons, List.nodup_cons] at h
    by_cases hq : q.1 = k
    · simp only [removeAssoc, hq, if_true]
      exact h.2
    · simp only [removeAssoc, hq, if_false, List.map_cons, List.nodup_cons]
      refine ⟨fun hc => h.1 (mem_keys_removeAssoc rest k q.1 hc), ih h.2⟩

theorem not_mem_keys_removeAssoc (l : List (String × Trade)) (k : String)
    (h : (l.map Prod.fst).Nodup) : k ∉ (removeAssoc l k).map Prod.fst := by
  induction l with
  | nil => simp [removeAssoc]
  | cons q rest ih =>
    simp only [List.map_cons, List.nodup_cons] at h
    by_cases hq : q.1 = k
    · simp only [removeAssoc, hq, if_true]
      rw [← hq]
      exact h.1
    · simp only [removeAssoc, hq, if_false, List.map_cons, List.mem_cons]
      intro hc
      rcases hc with hc | hc
      · exact hq hc.symm
      · exact ih h.2 hc

theorem keys_removeAssoc_iff (l : List (String × Trade)) (k x : String)
    (hk : k ∈ l.map Prod.fst) :
    (x ∈ l.map Prod.fst ↔ x ∈ (removeAssoc l k).map Prod.fst ∨ x = k) := by
  induction l with
  | nil => simp at hk
  | cons q rest ih =>
    by_cases hq : q.1 = k
    · simp only [removeAssoc, hq, if_true, List.map_cons, List.mem_cons]
      exact or_comm
    · have hk2 : k ∈ rest.map Prod.fst := by
        simp only [List.map_cons, List.mem_cons] at hk
        rcases hk with hk | hk
        · exact absurd hk.symm hq
        · exact hk
      simp only [removeAssoc, hq, if_false, List.map_cons, List.mem_cons, ih hk2]
      tauto

/-- C6: each of the three exit operations returns false and leaves the
ledger unchanged when the trade id is not open; when it is open, it
returns true, removes the trade from the open mapping (the id is no
longer an open key), appends the trade closed by the corresponding
transition to the closed sequence, and adds its realized PnL to the
running total. -/
theorem C6_exit_trade_spec (pt : PaperTrader) (id : String) (ts : ℕ) (p : ℚ)
    (reason : String) :
    (lookupAssoc pt.open_trades id = none →
      pt.exit_trade_at_target id ts = (pt, false) ∧
      pt.exit_trade_at_stop_loss id ts = (pt, false) ∧
      pt.exit_trade_at_price id p ts reason = (pt, false)) ∧
    (∀ tr, lookupAssoc pt.open_trades id = some tr →
      ((pt.exit_trade_at_target id ts).2 = true ∧
        (pt.exit_trade_at_target id ts).1.open_trades =
          removeAssoc pt.open_trades id ∧
        (pt.exit_trade_at_target id ts).1.closed_trades =
          pt.closed_trades ++ [tr.close_at_target ts] ∧
        (pt.exit_trade_at_target id ts).1.total_pnl =
          pt.total_pnl + (tr.target_price - tr.entry_price) * tr.quantity) ∧
      ((pt.exit_trade_at_stop_loss id ts).2 = true ∧
        (pt.exit_trade_at_stop_loss id ts).1.open_trades =
          removeAssoc pt.open_trades id ∧
        (pt.exit_trade_at_stop_loss id ts).1.closed_trades =
          pt.closed_trades ++ [tr.close_at_stop_loss ts] ∧
        (pt.exit_trade_at_stop_loss id ts).1.total_pnl =
          pt.total_pnl + (tr.stop_loss - tr.entry_price) * tr.quantity) ∧
      ((pt.exit_trade_at_price id p ts reason).2 = true ∧
        (pt.exit_trade_at_price id p ts reason).1.open_trades =
          removeAssoc pt.open_trades id ∧
        (pt.exit_trade_at_price id p ts reason).1.closed_trades =
          pt.closed_trades ++ [tr.close_at_price p ts reason] ∧
        (pt.exit_trade_at_price id p ts reason).1.total_pnl =
          pt.total_pnl + (p - tr.entry_price) * tr.quantity) ∧
      ((pt.open_trades.map Prod.fst).Nodup →
        id ∉ (pt.exit_trade_at_target id ts).1.open_trades.map Prod.fst)) := by
  constructor
  · intro hnone
    refine ⟨?_, ?_, ?_⟩ <;>
      simp [PaperTrader.exit_trade_at_target, PaperTrader.exit_trade_at_stop_loss,
        PaperTrader.exit_trade_at_price, hnone]
  · intro tr hsome
    refine ⟨⟨?_, ?_, ?_, ?_⟩, ⟨?_, ?_, ?_, ?_⟩, ⟨?_, ?_, ?_, ?_⟩, ?_⟩
    · simp [PaperTrader.exit_trade_at_target, hsome]
    · simp [PaperTrader.exit_trade_at_target, hsome, PaperTrader.move_to_closed]
    · simp [PaperTrader.exit_trade_at_target, hsome, PaperTrader.move_to_closed]
    · simp [PaperTrader.exit_trade_at_target, hsome, PaperTrader.move_to_closed,
        (close_at_target_pnl_eq tr ts).1]
    · simp [PaperTrader.exit_trade_at_stop_loss, hsome]
    · simp [PaperTrader.exit_trade_at_stop_loss, hsome, PaperTrader.move_to_closed]
    · simp [PaperTrader.exit_trade_at_stop_loss, hsome, PaperTrader.move_to_closed]
    · simp [PaperTrader.exit_trade_at_stop_loss, hsome, PaperTrader.move_to_closed,
        (close_at_stop_loss_pnl_eq tr ts).1]
    · simp [PaperTrader.exit_trade_at_price, hsome]
    · simp [PaperTrader.exit_trade_at_price, hsome, PaperTrader.move_to_closed]
    · simp [PaperTrader.exit_trade_at_price, hsome, PaperTrader.move_to_closed]
    · simp [PaperTrader.exit_trade_at_price, hsome, PaperTrader.move_to_closed,
        (close_at_price_pnl_eq tr p ts reason).1]
    · intro hnd
      simp only [PaperTrader.exit_trade_at_target, hsome, PaperTrader.move_to_closed]
      exact not_mem_keys_removeAssoc pt.open_trades id hnd

theorem C6_exit_trade_spec_witness :
    (ptOpen.exit_trade_at_target "T1" 1).2 = true ∧
    (ptOpen.exit_trade_at_target "T1" 1).1.total_pnl = 100 := by
  have h := (C6_exit_trade_spec ptOpen "T1" 1 102 "MANUAL_EXIT").2 tradeSample
    (by rfl)
  refine ⟨h.1.1, ?_⟩
  rw [h.1.2.2.2]
  norm_num [ptOpen, tradeSample]

/-- C3: `enter_trade` raises (an `.error` result, leaving the caller with
the unchanged ledger) when the id was already used as an open or closed
trade id, or any of entry/stop/target/quantity is nonpositive, or the stop
is at or above the entry, or the target is at or below the entry; in all
other cases it creates a fresh OPEN trade with exactly the given fields,
appends it to the all-trades sequence and adds it to the open mapping. -/
theorem C3_enter_trade_spec (pt : PaperTrader) (id : String)
    (en st tg q : ℚ) (ts : ℕ) :
    ((id ∈ pt.open_trades.map Prod.fst ∨
        id ∈ pt.closed_trades.map Trade.trade_id ∨
        en ≤ 0 ∨ st ≤ 0 ∨ tg ≤ 0 ∨ q ≤ 0 ∨ st ≥ en ∨ tg ≤ en) →
      ∃ msg, pt.enter_trade id en st tg q ts = .error msg) ∧
    (¬(id ∈ pt.open_trades.map Prod.fst ∨
        id ∈ pt.closed_trades.map Trade.trade_id ∨
        en ≤ 0 ∨ st ≤ 0 ∨ tg ≤ 0 ∨ q ≤ 0 ∨ st ≥ en ∨ tg ≤ en) →
      ∃ tr : Trade, tr.trade_id = id ∧ tr.status = .OPEN ∧
        tr.entry_price = en ∧ tr.stop_loss = st ∧ tr.target_price = tg ∧
        tr.quantity = q ∧ tr.entry_time = ts ∧ tr.exit_price = none ∧
        tr.pnl = none ∧
        pt.enter_trade id en st tg q ts =
          .ok { pt with trades := pt.trades ++ [tr],
                        open_trades := pt.open_trades ++ [(id, tr)] }) := by
  constructor
  · intro h
    unfold PaperTrader.enter_trade
    split_ifs with h1 h2 h3 h4 h5 h6 h7
    · exact ⟨_, rfl⟩
    · exact ⟨_, rfl⟩
    · exact ⟨_, rfl⟩
    · exact ⟨_, rfl⟩
    · exact ⟨_, rfl⟩
    · exact ⟨_, rfl⟩
    · exact ⟨_, rfl⟩
    · exfalso
      push_neg at h1
      rcases h with h | h | h | h | h | h | h | h
      · exact h1.1 h
      · exact h1.2 h
      · exact h2 h
      · exact h3 h
      · exact h4 h
      · exact h5 h
      · exact h6 h
      · exact h7 h
  · intro h
    push_neg at h
    obtain ⟨ho, hc, hen, hst, htg, hq, hse, hte⟩ := h
    have h1 : ¬(id ∈ pt.open_trades.map Prod.fst ∨
        id ∈ pt.closed_trades.map Trade.trade_id) := by
      push_neg
      exact ⟨ho, hc⟩
    have h2 : ¬ en ≤ 0 := not_le.mpr hen
    have h3 : ¬ st ≤ 0 := not_le.mpr hst
    have h4 : ¬ tg ≤ 0 := not_le.mpr htg
    have h5 : ¬ q ≤ 0 := not_le.mpr hq
    have h6 : ¬ st ≥ en := not_le.mpr hse
    have h7 : ¬ tg ≤ en := not_le.mpr hte
    refine ⟨{ trade_id := id, entry_price := en, stop_loss := st,
              target_price := tg, quantity := q, entry_time := ts },
      rfl, rfl, rfl, rfl, rfl, rfl, rfl, rfl, rfl, ?_⟩
    simp only [PaperTrader.enter_trade, h1, h2, h3, h4, h5, h6, h7,
      if_false, ite_false]

theorem C3_enter_trade_spec_witness :
    ∃ tr : Trade, tr.trade_id = "T1" ∧ tr.status = .OPEN ∧
      tr.entry_price = 100 ∧ tr.stop_loss = 95 ∧ tr.target_price = 110 ∧
      tr.quantity = 10 ∧ tr.entry_time = 0 ∧ tr.exit_price = none ∧
      tr.pnl = none ∧
      PaperTrader.init.enter_trade "T1" 100 95 110 10 0 =
        .ok { PaperTrader.init with
              trades := PaperTrader.init.trades ++ [tr],
              open_trades := PaperTrader.init.open_trades ++ [("T1", tr)] } :=
  (C3_enter_trade_spec PaperTrader.init "T1" 100 95 110 10 0).2
    (by
      push_neg
      refine ⟨by simp [PaperTrader.init], by simp [PaperTrader.init],
        by norm_num, by norm_num, by norm_num, by norm_num, by norm_num,
        by norm_num⟩)

theorem nodup_append_singleton {α : Type} (l : List α) (a : α)
    (hl : l.Nodup) (ha : a ∉ l) : (l ++ [a]).Nodup := by
  simp [List.nodup_append, hl, ha]

theorem enter_trade_ok_shape (pt : PaperTrader) (id : String) (en st tg q : ℚ)
    (ts : ℕ) (pt2 : PaperTrader)
    (h : pt.enter_trade id en st tg q ts = .ok pt2) :
    id ∉ pt.open_trades.map Prod.fst ∧
    id ∉ pt.closed_trades.map Trade.trade_id ∧
    ∃ tr : Trade, tr.trade_id = id ∧
      pt2.trades = pt.trades ++ [tr] ∧
      pt2.open_trades = pt.open_trades ++ [(id, tr)] ∧
      pt2.closed_trades = pt.closed_trades := by
  unfold PaperTrader.enter_trade at h
  split_ifs at h with h1 h2 h3 h4 h5 h6 h7
  push_neg at h1
  injection h with h
  refine ⟨h1.1, h1.2, { trade_id := id, entry_price := en, stop_loss := st,
                        target_price := tg, quantity := q, entry_time := ts },
    rfl, ?_, ?_, ?_⟩ <;> rw [← h]

theorem ledgerInv_enter (pt : PaperTrader) (id : String) (en st tg q : ℚ)
    (ts : ℕ) (pt2 : PaperTrader)
    (h : pt.enter_trade id en st tg q ts = .ok pt2)
    (hinv : LedgerInv pt) : LedgerInv pt2 := by
  obtain ⟨hA, hO, hC, hD, hCov, hAssoc⟩ := hinv
  obtain ⟨ho, hc, tr, htr, htrades, hopen, hclosed⟩ :=
    enter_trade_ok_shape pt id en st tg q ts pt2 h
  have hall : id ∉ allIds pt := by
    intro hx
    rcases (hCov id).mp hx with hx | hx
    · exact ho hx
    · exact hc hx
  have hA2 : allIds pt2 = allIds pt ++ [id] := by
    simp [allIds, htrades, htr]
  have hO2 : openKeys pt2 = openKeys pt ++ [id] := by
    simp [openKeys, hopen]
  have hC2 : closedIds pt2 = closedIds pt := by
    simp [closedIds, hclosed]
  refine ⟨?_, ?_, ?_, ?_, ?_, ?_⟩
  · rw [hA2]
    exact nodup_append_singleton _ _ hA hall
  · rw [hO2]
    exact nodup_append_singleton _ _ hO ho
  · rw [hC2]
    exact hC
  · intro x hx
    rw [hO2] at hx
    rw [hC2]
    rcases List.mem_append.mp hx with hx | hx
    · exact hD x hx
    · have : x = id := by simpa using hx
      rw [this]
      exact hc
  · intro x
    rw [hA2, hO2, hC2]
    simp only [List.mem_append, List.mem_singleton]
    rw [hCov x]
    tauto
  · intro p hp
    rw [hopen] at hp
    rcases List.mem_append.mp hp with hp | hp
    · exact hAssoc p hp
    · have : p = (id, tr) := by simpa using hp
      rw [this]
      exact htr

theorem ledgerInv_move_to_closed (pt : PaperTrader) (id : String) (tr tr2 : Trade)
    (hlk : lookupAssoc pt.open_trades id = some tr)
    (hid : tr2.trade_id = tr.trade_id)
    (hinv : LedgerInv pt) : LedgerInv (pt.move_to_closed id tr2) := by
  obtain ⟨hA, hO, hC, hD, hCov, hAssoc⟩ := hinv
  have hmem : (id, tr) ∈ pt.open_trades := lookupAssoc_mem _ _ _ hlk
  have htrid : tr.trade_id = id := hAssoc (id, tr) hmem
  have hidk : id ∈ openKeys pt := lookupAssoc_mem_keys _ _ _ hlk
  have hid2 : tr2.trade_id = id := by rw [hid, htrid]
  have hA2 : allIds (pt.move_to_closed id tr2) = allIds pt := by
    simp [allIds, PaperTrader.move_to_closed]
  have hO2 : openKeys (pt.move_to_closed id tr2) =
      (removeAssoc pt.open_trades id).map Prod.fst := by
    simp [openKeys, PaperTrader.move_to_closed]
  have hC2 : closedIds (pt.move_to_closed id tr2) = closedIds pt ++ [id] := by
    simp [closedIds, PaperTrader.move_to_closed, hid2]
  refine ⟨?_, ?_, ?_, ?_, ?_, ?_⟩
  · rw [hA2]
    exact hA
  · rw [hO2]
    exact nodup_keys_removeAssoc _ _ hO
  · rw [hC2]
    exact nodup_append_singleton _ _ hC (hD id hidk)
  · intro x hx
    rw [hO2] at hx
    rw [hC2]
    have hxo : x ∈ openKeys pt := mem_keys_removeAssoc _ _ _ hx
    have hxid : x ≠ id := by
      intro hxe
      rw [hxe] at hx
      exact not_mem_keys_removeAssoc _ _ hO hx
    simp only [List.mem_append, List.mem_singleton]
    intro hcon
    rcases hcon with hcon | hcon
    · exact hD x hxo hcon
    · exact hxid hcon
  · intro x
    rw [hA2, hO2, hC2]
    have hiff := keys_removeAssoc_iff pt.open_trades id x hidk
    rw [hCov x]
    show x ∈ pt.open_trades.map Prod.fst ∨ x ∈ closedIds pt ↔
      x ∈ (removeAssoc pt.open_trades id).map Prod.fst ∨ x ∈ closedIds pt ++ [id]
    rw [hiff]
    simp only [List.mem_append, List.mem_singleton]
    tauto
  · intro p hp
    have hp2 : p ∈ pt.open_trades := by
      have : p ∈ removeAssoc pt.open_trades id := by
        simpa [PaperTrader.move_to_closed] using hp
      exact removeAssoc_subset _ _ p this
    exact hAssoc p hp2

theorem ledgerInv_applyOp (pt : PaperTrader) (op : PTOp) (h : LedgerInv pt) :
    LedgerInv (pt.applyOp op) := by
  cases op with
  | enter id en st tg q ts =>
    show LedgerInv (match pt.enter_trade id en st tg q ts with
      | .ok pt2 => pt2
      | .error _ => pt)
    cases hres : pt.enter_trade id en st tg q ts with
    | error msg => exact h
    | ok pt2 => exact ledgerInv_enter pt id en st tg q ts pt2 hres h
  | exitTarget id ts =>
    show LedgerInv (pt.exit_trade_at_target id ts).1
    unfold PaperTrader.exit_trade_at_target
    cases hlk : lookupAssoc pt.open_trades id with
    | none => exact h
    | some tr =>
      exact ledgerInv_move_to_closed pt id tr _ hlk
        (close_at_target_trade_id tr ts) h
  | exitStop id ts =>
    show LedgerInv (pt.exit_trade_at_stop_loss id ts).1
    unfold PaperTrader.exit_trade_at_stop_loss
    cases hlk : lookupAssoc pt.open_trades id with
    | none => exact h
    | some tr =>
      exact ledgerInv_move_to_closed pt id tr _ hlk
        (close_at_stop_loss_trade_id tr ts) h
  | exitPrice id p ts r =>
    show LedgerInv (pt.exit_trade_at_price id p ts r).1
    unfold PaperTrader.exit_trade_at_price
    cases hlk : lookupAssoc pt.open_trades id with
    | none => exact h
    | some tr =>
      exact ledgerInv_move_to_closed pt id tr _ hlk
        (close_at_price_trade_id tr p ts r) h

theorem ledgerInv_runOps (ops : List PTOp) :
    ∀ pt, LedgerInv pt → LedgerInv (pt.runOps ops) := by
  induction ops with
  | nil => intro pt h; exact h
  | cons op rest ih =>
    intro pt h
    exact ih (pt.applyOp op) (ledgerInv_applyOp pt op h)

theorem ledgerInv_init : LedgerInv PaperTrader.init := by
  refine ⟨?_, ?_, ?_, ?_, ?_, ?_⟩ <;> simp [PaperTrader.init, allIds, openKeys,
    closedIds]

/-- C7: in every ledger state reachable from a fresh `PaperTrader` by any
sequence of enter and exit operations, the open-mapping keys, the closed
ids and the all-trades ids each contain no duplicates, open and closed
ids are disjoint in both directions, and every open or closed id is one
of the all-trades ids (so no trade id is ever used twice across the
ledger lifetime). -/
theorem C7_ledger_id_uniqueness (ops : List PTOp) :
    (openKeys (PaperTrader.init.runOps ops)).Nodup ∧
    (closedIds (PaperTrader.init.runOps ops)).Nodup ∧
    (allIds (PaperTrader.init.runOps ops)).Nodup ∧
    (∀ x ∈ openKeys (PaperTrader.init.runOps ops),
      x ∉ closedIds (PaperTrader.init.runOps ops)) ∧
    (∀ x ∈ closedIds (PaperTrader.init.runOps ops),
      x ∉ openKeys (PaperTrader.init.runOps ops)) ∧
    (∀ x, x ∈ openKeys (PaperTrader.init.runOps ops) ∨
        x ∈ closedIds (PaperTrader.init.runOps ops) →
      x ∈ allIds (PaperTrader.init.runOps ops)) := by
  have h := ledgerInv_runOps ops PaperTrader.init ledgerInv_init
  obtain ⟨hA, hO, hC, hD, hCov, _⟩ := h
  exact ⟨hO, hC, hA, hD, fun x hx hxo => hD x hxo hx,
    fun x hx => (hCov x).mpr hx⟩

theorem get_pnl_list_ne_nil (pt : PaperTrader)
    (hall : ∀ t ∈ pt.closed_trades, t.pnl.isSome)
    (hne : pt.closed_trades ≠ []) : pt.get_pnl_list ≠ [] := by
  cases hcl : pt.closed_trades with
  | nil => exact absurd hcl hne
  | cons t rest =>
    have ht : t.pnl.isSome := hall t (by rw [hcl]; exact List.mem_cons_self t rest)
    obtain ⟨p, hp⟩ := Option.isSome_iff_exists.mp ht
    unfold PaperTrader.get_pnl_list
    rw [hcl]
    simp [hp]

/-- C8: `get_win_rate` is 0 when there are no closed trades and otherwise
the fraction of closed trades with positive PnL times 100;
`get_statistics` reports the same win rate; its profit factor is gross
profit divided by gross loss when the gross loss (absolute sum of losing
PnLs) is nonzero, and 0 whenever the gross loss is zero, even when the
gross profit is positive. -/
theorem C8_statistics_spec (pt : PaperTrader)
    (hall : ∀ t ∈ pt.closed_trades, t.pnl.isSome) :
    (pt.closed_trades = [] →
      pt.get_win_rate = 0 ∧ (pt.get_statistics).win_rate = 0) ∧
    (pt.closed_trades ≠ [] →
      pt.get_win_rate =
        ((pt.closed_trades.countP (fun t => decide (0 < t.pnl.getD 0)) : ℚ) /
          (pt.closed_trades.length : ℚ)) * 100 ∧
      (pt.get_statistics).win_rate = pt.get_win_rate) ∧
    ((pt.get_pnl_list.filter (fun p => decide (p < 0))).sum = 0 →
      (pt.get_statistics).profit_factor = 0) ∧
    ((pt.get_pnl_list.filter (fun p => decide (p < 0))).sum ≠ 0 →
      (pt.get_statistics).profit_factor =
        (pt.get_pnl_list.filter (fun p => decide (0 < p))).sum /
          |(pt.get_pnl_list.filter (fun p => decide (p < 0))).sum|) := by
  refine ⟨?_, ?_, ?_, ?_⟩
  · intro h
    constructor
    · simp [PaperTrader.get_win_rate, h]
    · simp [PaperTrader.get_statistics, PaperTrader.get_pnl_list, h]
  · intro hne
    have hpred : ∀ t ∈ pt.closed_trades,
        (match t.pnl with | some p => decide (0 < p) | none => false) =
          decide (0 < t.pnl.getD 0) := by
      intro t _
      cases hpn : t.pnl with
      | none =>
        simp only [hpn, Option.getD_none]
        decide
      | some p =>
        simp only [hpn, Option.getD_some]
    constructor
    · have hfil : pt.closed_trades.filter
          (fun t => match t.pnl with | some p => decide (0 < p) | none => false) =
          pt.closed_trades.filter (fun t => decide (0 < t.pnl.getD 0)) :=
        List.filter_congr hpred
      simp only [PaperTrader.get_win_rate, hne, ite_false, if_false, hfil,
        List.countP_eq_length_filter]
    · have hlist := get_pnl_list_ne_nil pt hall hne
      simp only [PaperTrader.get_statistics, hlist, ite_false, if_false]
  · intro hzero
    by_cases hemp : pt.get_pnl_list = []
    · simp [PaperTrader.get_statistics, hemp]
    · have hgl : ¬ (0 < |(pt.get_pnl_list.filter (fun p => decide (p < 0))).sum|) := by
        rw [hzero]
        simp
      simp only [PaperTrader.get_statistics, hemp, ite_false, if_false, hgl]
  · intro hnz
    have hemp : pt.get_pnl_list ≠ [] := by
      intro he
      apply hnz
      rw [he]
      simp
    have hgl : 0 < |(pt.get_pnl_list.filter (fun p => decide (p < 0))).sum| :=
      abs_pos.mpr hnz
    simp only [PaperTrader.get_statistics, hemp, ite_false, if_false, hgl,
      ite_true, if_true]

theorem C8_statistics_spec_witness :
    (ptWinner.get_statistics).profit_factor = 0 ∧
    ptWinner.get_win_rate = 100 := by
  have h := C8_statistics_spec ptWinner (by decide)
  constructor
  · refine h.2.2.1 ?_
    norm_num [PaperTrader.get_pnl_list, ptWinner, tradeWin,
      List.filterMap_cons, List.filter_cons, decide_eq_true_eq]
  · rw [(h.2.1 (by decide)).1]
    norm_num [ptWinner, tradeWin, List.countP_cons, List.countP_nil]
